import Mathlib

/-!
Verification development for the LiveWire real-time coaching pipeline.

Shallow embedding of the services under `livewire/services`:
card_generator.py, retrieve.py, idempotency.py, suppression_engine.py,
guardrails.py, rate_limit_handler.py, a365_integration.py and ingest.py.

Modelling conventions:
- Python floats are modelled as rationals (`ℚ`); the properties checked
  here concern comparisons and exact arithmetic, not rounding of binary
  floats.
- Python dicts used as records are modelled as structures; dicts used as
  keyed stores are modelled as association lists.
- Wall-clock time (`time.time()` / `datetime.now()` / `datetime.utcnow()`)
  is passed in explicitly as a numeric argument.
- Mutable objects become explicit state values threaded through the
  functions.
- String helpers (strip, splitlines, lower, slicing) are re-implemented on
  `List Char` so that every definition reduces inside the kernel; they
  mirror the Python semantics on the ASCII text the services handle.
-/

/-! ## Python-style string helpers -/

/-- Python `str.strip()` on a character list: drop whitespace from both ends. -/
def pyTrimList (s : List Char) : List Char :=
  ((s.dropWhile Char.isWhitespace).reverse.dropWhile Char.isWhitespace).reverse

/-- Python `str.strip()`. -/
def pyTrim (s : String) : String := String.mk (pyTrimList s.data)

/-- Python `s[:n]` (slicing counts code points, as `List Char` does). -/
def pyTake (s : String) (n : Nat) : String := String.mk (s.data.take n)

/-- Python `s[-n:]` — the last `n` characters (the whole string when shorter). -/
def pyTakeLast (s : String) (n : Nat) : String :=
  String.mk (s.data.drop (s.data.length - n))

/-- Split a character list on a separator character (like Python `str.split(sep)`
with a single-character separator). -/
def splitOnCharAux (sep : Char) : List Char → List Char → List (List Char)
  | acc, [] => [acc.reverse]
  | acc, c :: rest =>
    if c = sep then acc.reverse :: splitOnCharAux sep [] rest
    else splitOnCharAux sep (c :: acc) rest

/-- Python `s.split(sep)` for a single-character separator. -/
def pySplitChar (sep : Char) (s : String) : List String :=
  (splitOnCharAux sep [] s.data).map String.mk

/-- Python `str.splitlines()` for newline-terminated text: like splitting on
`'\n'` except that a trailing newline does not produce a final empty line and
the empty string yields no lines. -/
def pySplitlines (s : String) : List String :=
  if s = "" then []
  else
    let parts := pySplitChar (Char.ofNat 10) s
    if parts.getLast? = some "" then parts.dropLast else parts

/-- Python `str.startswith(pre)`. -/
def pyStartsWith (s pre : String) : Bool := pre.data.isPrefixOf s.data

/-- Python `str.endswith(suf)`. -/
def pyEndsWith (s suf : String) : Bool := suf.data.reverse.isPrefixOf s.data.reverse

/-- Python `str.lower()` (ASCII case mapping). -/
def pyLower (s : String) : String := String.mk (s.data.map Char.toLower)

/-- Python `"sep".join(parts)` for a single-character separator. -/
def pyJoinChar (sep : Char) : List String → String
  | [] => ""
  | [x] => x
  | x :: rest => x ++ String.mk [sep] ++ pyJoinChar sep rest

/-- Python truthiness of an optional string (`None` and `""` are falsy). -/
def pyTruthyStr : Option String → Bool
  | some s => decide (s ≠ "")
  | none => false

/-- Python `str(x)` for an optional string, where `none` models `None`. -/
def pyStr : Option String → String
  | some s => s
  | none => "None"

/-- Python list indexing `l[i]`: non-negative indices from the front, negative
indices from the back, `none` models an `IndexError`. -/
def pyIndex {α : Type} (l : List α) (i : Int) : Option α :=
  if 0 ≤ i then l[i.toNat]?
  else if 0 ≤ (l.length : Int) + i then l[((l.length : Int) + i).toNat]?
  else none

/-- `collections.deque(maxlen := cap)` append: drop the oldest element once
the capacity is reached. -/
def pushBounded {α : Type} (cap : Nat) (x : α) (l : List α) : List α :=
  if l.length < cap then l ++ [x] else l.drop 1 ++ [x]

/-- Python `round(x)`: round half to even (banker's rounding). -/
def pyRoundHalfEven (x : ℚ) : ℤ :=
  if Int.fract x = 1/2 then (if Even ⌊x⌋ then ⌊x⌋ else ⌊x⌋ + 1) else round x

/-- Python `round(x, 2)`. -/
def pyRound2 (x : ℚ) : ℚ := (pyRoundHalfEven (x * 100) : ℚ) / 100

/-! ## card_generator.py -/

/-- The `metadata` dict written by `ingest.py` and read by
`card_generator.py`; absent keys are `none`. `section_heading` is the
source's `"section"` key (`section` is a Lean keyword). -/
structure ChunkMetadata where
  source_file : Option String
  page : Option Nat
  section_heading : Option String
  ingested_at : Option String
deriving DecidableEq, Repr

/-- One element of the `retrieved_chunks` list passed to `generate_cards`
(shape produced by `retrieve.py`). -/
structure RetrievedChunk where
  chunk_id : String
  text_content : String
  score : ℚ
  metadata : ChunkMetadata
deriving DecidableEq, Repr

/-- A battle card as built by `card_generator.py` (`type` is the card's
`"type"` field). -/
structure Card where
  card_id : String
  title : String
  body : String
  type : String
  grounded : Bool
  confidence_score : ℚ
  source_chunk_ids : List String
deriving DecidableEq, Repr

/-- `MAX_BODY_LENGTH = 300` in card_generator.py. -/
def MAX_BODY_LENGTH : Nat := 300

/-- `GROUNDING_THRESHOLD = 1.25` in card_generator.py. -/
def GROUNDING_THRESHOLD : ℚ := 5/4

/-- Python `a or b` for optional strings: `none` and `""` are falsy. -/
def strTruthy : Option String → Option String
  | some s => if s = "" then none else some s
  | none => none

/-- `metadata.get("section") or metadata.get("source_file") or f"Insight #{i + 1}"`. -/
def cardTitle (md : ChunkMetadata) (i : Nat) : String :=
  match strTruthy md.section_heading with
  | some s => s
  | none =>
    match strTruthy md.source_file with
    | some s => s
    | none => "Insight #" ++ toString (i + 1)

/-- The body truncation in `generate_cards`:
`if len(content) > MAX_BODY_LENGTH: content = content[:MAX_BODY_LENGTH] + "..."`. -/
def truncateBody (content : String) : String :=
  if MAX_BODY_LENGTH < content.length then pyTake content MAX_BODY_LENGTH ++ "..." else content

/-- The card built for the chunk at position `i` of `retrieved_chunks[:3]`. -/
def groundedCard (i : Nat) (chunk : RetrievedChunk) : Card :=
  { card_id := "grounded-" ++ pyTake chunk.chunk_id 8
    title := cardTitle chunk.metadata i
    body := truncateBody chunk.text_content
    type := "coaching"
    grounded := true
    confidence_score := pyRound2 (max 0 (min 1 (1 - chunk.score / GROUNDING_THRESHOLD)))
    source_chunk_ids := [chunk.chunk_id] }

/-- `_generate_fallback_card` (the apostrophe in "couldn't" is spelled via
`Char.ofNat 39`). -/
def fallbackCard : Card :=
  { card_id := "generic-fallback"
    title := "Need More Context"
    body := "I couldn" ++ String.mk [Char.ofNat 39] ++
      "t find a match in the playbook. Could you ask a clarifying question to narrow down the topic?"
    type := "generic"
    grounded := false
    confidence_score := 0
    source_chunk_ids := [] }

/-- `generate_cards(transcript_window, retrieved_chunks)`. -/
def generateCards (_transcript_window : String) (retrieved_chunks : List RetrievedChunk) :
    List Card :=
  if retrieved_chunks = [] then [fallbackCard]
  else (retrieved_chunks.take 3).enum.map (fun p => groundedCard p.1 p.2)

/-! ## retrieve.py -/

/-- `DISTANCE_THRESHOLD = 1.2` in retrieve.py. -/
def DISTANCE_THRESHOLD : ℚ := 6/5

/-- One record of `local_vector_db.json` as read by `_run_retrieval`. -/
structure DbRec where
  chunk_id : String
  text_content : String
  metadata : ChunkMetadata
deriving DecidableEq, Repr

/-- One element of the list built by `_run_retrieval`. -/
structure RetrievalResult where
  chunk_id : String
  score : ℚ
  confidence : ℚ
  grounded : Bool
  text_content : String
  metadata : ChunkMetadata
deriving DecidableEq, Repr

/-- The result-collection loop of `_run_retrieval`: `hits` is the zipped
FAISS output `zip(I[0], D[0])`; `none` models an uncaught `IndexError` from
`db[idx]`. -/
def collectResults (db : List DbRec) : List (Int × ℚ) → Option (List RetrievalResult)
  | [] => some []
  | (idx, raw_score) :: rest =>
    if idx = -1 then collectResults db rest
    else if DISTANCE_THRESHOLD ≤ raw_score then collectResults db rest
    else
      match pyIndex db idx with
      | none => none
      | some record =>
        (collectResults db rest).map
          (fun out =>
            { chunk_id := record.chunk_id
              score := raw_score
              confidence := 19/20
              grounded := true
              text_content := record.text_content
              metadata := record.metadata } :: out)

/-- `_run_retrieval(query, top_k)`, abstracted over the external embedding
model and FAISS search: `search` is the oracle's output for this query
(`none` when `vector_index.bin` is not loaded), `db` is the chunk database
(`none` when `local_vector_db.json` is not loaded). -/
def runRetrieval (search : Option (List (Int × ℚ))) (db : Option (List DbRec)) :
    Option (List RetrievalResult) :=
  match search, db with
  | none, _ => some []
  | some _, none => some []
  | some hits, some records => collectResults records hits

/-- `retrieve_chunks(query, top_k)`: `list(_retrieve_cached(query, top_k))`,
where the `lru_cache` wrapper is the identity on this pure computation. -/
def retrieveChunks (search : Option (List (Int × ℚ))) (db : Option (List DbRec)) :
    Option (List RetrievalResult) :=
  runRetrieval search db

/-! ## idempotency.py

The payload dict `payload: Dict[str, Any]` is modelled as an association
list of string keys to string values. `_stable_hash` serializes the payload
with `json.dumps(payload, sort_keys=True)` and digests it with SHA-256; the
digest of an external collision-free hash is modelled by the normalized
serialization itself, so key (in)equality reduces to (in)equality of the
canonical JSON text. (`json.dumps` additionally escapes control characters;
the payloads here contain none, and omitting those escapes does not affect
injectivity.) -/

/-- JSON string escaping of one character (backslash and double quote). -/
def jsonEscapeChar (c : Char) : List Char :=
  if c = Char.ofNat 92 ∨ c = Char.ofNat 34 then [Char.ofNat 92, c] else [c]

/-- JSON string escaping. -/
def jsonEscape : List Char → List Char
  | [] => []
  | c :: cs => jsonEscapeChar c ++ jsonEscape cs

/-- A JSON string literal: `"` ++ escaped contents ++ `"`. -/
def encString (s : String) : List Char :=
  Char.ofNat 34 :: (jsonEscape s.data ++ [Char.ofNat 34])

/-- One `"key": "value"` entry, with `json.dumps`'s default `": "` separator. -/
def encEntry (kv : String × String) : List Char :=
  encString kv.1 ++ ':' :: ' ' :: encString kv.2

/-- The comma-joined entries, with `json.dumps`'s default `", "` separator. -/
def encBody : List (String × String) → List Char
  | [] => []
  | [kv] => encEntry kv
  | kv :: rest => encEntry kv ++ ',' :: ' ' :: encBody rest

/-- Ordering used to sort payload entries: by key, ties by value. For the
key-distinct entry lists that model Python dicts this agrees with
`sort_keys=True`, and it is antisymmetric on pairs. -/
def entryLe (a b : String × String) : Prop :=
  a.1 < b.1 ∨ (a.1 = b.1 ∧ a.2 ≤ b.2)

instance : DecidableRel entryLe := fun a b => by
  unfold entryLe; infer_instance

instance : IsTotal (String × String) entryLe := by
  constructor
  intro a b
  rcases lt_trichotomy a.1 b.1 with h | h | h
  · exact Or.inl (Or.inl h)
  · rcases le_total a.2 b.2 with h2 | h2
    · exact Or.inl (Or.inr ⟨h, h2⟩)
    · exact Or.inr (Or.inr ⟨h.symm, h2⟩)
  · exact Or.inr (Or.inl h)

instance : IsTrans (String × String) entryLe := by
  constructor
  intro a b c hab hbc
  rcases hab with h1 | ⟨e1, v1⟩
  · rcases hbc with h2 | ⟨e2, _⟩
    · exact Or.inl (lt_trans h1 h2)
    · exact Or.inl (e2 ▸ h1)
  · rcases hbc with h2 | ⟨e2, v2⟩
    · exact Or.inl (e1 ▸ h2)
    · exact Or.inr ⟨e1.trans e2, le_trans v1 v2⟩

instance : IsAntisymm (String × String) entryLe := by
  constructor
  intro a b hab hba
  rcases hab with h1 | ⟨e1, v1⟩
  · rcases hba with h2 | ⟨e2, _⟩
    · exact absurd h2 (lt_asymm h1)
    · exact absurd e2.symm (ne_of_lt h1)
  · rcases hba with h2 | ⟨_, v2⟩
    · exact absurd e1.symm (ne_of_lt h2)
    · exact Prod.ext e1 (le_antisymm v1 v2)

/-- The sorted-key normalization performed by
`json.dumps(payload, sort_keys=True)`. -/
def sortEntries (p : List (String × String)) : List (String × String) :=
  p.insertionSort entryLe

/-- `json.dumps(payload, sort_keys=True)` as a character list. -/
def jsonDumpsSorted (p : List (String × String)) : List Char :=
  '{' :: (encBody (sortEntries p) ++ ['}'])

/-- `_stable_hash(payload)`: the deterministic content digest of the
payload. The SHA-256 hexdigest of the normalized serialization is modelled
by the normalized serialization itself (see the section comment). -/
def stableHash (payload : List (String × String)) : String :=
  String.mk (jsonDumpsSorted payload)

/-- `_dedupe_key(session_id, artifact_type, payload_hash)`. -/
def dedupeKey (session_id artifact_type payload_hash : String) : String :=
  session_id ++ ":" ++ artifact_type ++ ":" ++ payload_hash

/-- `DEDUP_TTL_MINUTES = 60`; time is measured in minutes. -/
def DEDUP_TTL_MINUTES : ℚ := 60

/-- `_cleanup_expired_entries()`: drop entries with `now - ts > TTL`. -/
def cleanupExpired (now : ℚ) (store : List (String × ℚ)) : List (String × ℚ) :=
  store.filter (fun e => ¬ DEDUP_TTL_MINUTES < now - e.2)

/-- `check_and_mark_idempotent(session_id, artifact_type, payload)` over the
explicit dedupe store; returns `((is_duplicate, dedupe_key), new_store)`. -/
def checkAndMarkIdempotent (now : ℚ) (store : List (String × ℚ))
    (session_id artifact_type : String) (payload : List (String × String)) :
    (Bool × String) × List (String × ℚ) :=
  let store1 := cleanupExpired now store
  let key := dedupeKey session_id artifact_type (stableHash payload)
  match store1.lookup key with
  | some _ => ((true, key), store1)
  | none => ((false, key), (key, now) :: store1)

/-! ### A decoder for the canonical serialization, used to prove it injective -/

/-- Parse the contents of a JSON string literal after its opening quote;
returns the unescaped contents and the input remaining after the closing
quote. -/
def parseJString : List Char → Option (List Char × List Char)
  | [] => none
  | c :: rest =>
    if c = Char.ofNat 34 then some ([], rest)
    else if c = Char.ofNat 92 then
      match rest with
      | [] => none
      | d :: rest2 => (parseJString rest2).map (fun p => (d :: p.1, p.2))
    else (parseJString rest).map (fun p => (c :: p.1, p.2))

/-- Parse a nonempty `", "`-separated entry list terminated by `"}"`. -/
def parseEntries : Nat → List Char → Option (List (String × String))
  | 0, _ => none
  | fuel + 1, cs =>
    match cs with
    | c :: cs1 =>
      if c = Char.ofNat 34 then
        match parseJString cs1 with
        | none => none
        | some (k, cs2) =>
          match cs2 with
          | ':' :: ' ' :: q :: cs3 =>
            if q = Char.ofNat 34 then
              match parseJString cs3 with
              | none => none
              | some (v, cs4) =>
                match cs4 with
                | ['}'] => some [(String.mk k, String.mk v)]
                | ',' :: ' ' :: cs5 =>
                  (parseEntries fuel cs5).map (fun l => (String.mk k, String.mk v) :: l)
                | _ => none
            else none
          | _ => none
      else none
    | [] => none

/-- Parse a full canonical serialization back into its entry list. -/
def parseDump (cs : List Char) : Option (List (String × String)) :=
  match cs with
  | ['{', '}'] => some []
  | '{' :: rest => parseEntries rest.length rest
  | _ => none

/-! ## suppression_engine.py -/

/-- One entry of `SuppressionEngine.evidence_history`. -/
structure EvidenceEntry where
  span : String
  timestamp : ℚ
  card_type : String
deriving DecidableEq, Repr

/-- The mutable fields of a `SuppressionEngine` instance
(`evidence_history` is a deque with `maxlen=100`). -/
structure SuppressionState where
  handled_cards : List (String × ℚ)
  cooldowns : List (String × ℚ)
  evidence_history : List EvidenceEntry
deriving DecidableEq, Repr

/-- `self.COOLDOWN_WINDOWS`. -/
def COOLDOWN_WINDOWS : List (String × ℚ) :=
  [("price", 300), ("timing", 180), ("features", 240), ("competitor", 300),
   ("authority", 180), ("trust", 240), ("default", 180)]

/-- `self.COOLDOWN_WINDOWS.get(card_type, self.COOLDOWN_WINDOWS["default"])`. -/
def cooldownFor (card_type : String) : ℚ :=
  (COOLDOWN_WINDOWS.lookup card_type).getD ((COOLDOWN_WINDOWS.lookup "default").getD 0)

/-- `self.SUPPRESSION_WINDOW = 120`. -/
def SUPPRESSION_WINDOW : ℚ := 120

/-- The structured decision dict returned by `should_show_card`.
`show_card` is the source's `"show"` key (`show` is a Lean keyword); the
optional fields model keys present only on some branches. The numeric
formatting inside `"message"` values is not modelled. -/
structure SuppressionDecision where
  show_card : Bool
  reason : String
  suppressed_for : Option ℚ
  cooldown_remaining : Option ℚ
  message : String
deriving DecidableEq, Repr

/-- `_is_duplicate_evidence(evidence_span)` (the 30-second `recent_window`). -/
def isDuplicateEvidence (st : SuppressionState) (now : ℚ) (evidence_span : String) : Bool :=
  st.evidence_history.any (fun e => e.span = evidence_span ∧ now - e.timestamp < 30)

/-- `SuppressionEngine.should_show_card(card_type, evidence_span)`; returns
the decision together with the updated engine state. -/
def shouldShowCard (st : SuppressionState) (now : ℚ) (card_type evidence_span : String) :
    SuppressionDecision × SuppressionState :=
  let handled_key := card_type ++ ":" ++ evidence_span
  let dupStep : SuppressionDecision × SuppressionState :=
    if isDuplicateEvidence st now evidence_span then
      ({ show_card := false, reason := "duplicate_evidence", suppressed_for := none,
         cooldown_remaining := none,
         message := "Same evidence span triggered multiple cards" }, st)
    else
      ({ show_card := true, reason := "allowed", suppressed_for := none,
         cooldown_remaining := none,
         message := "Card passes all suppression checks" },
       { st with evidence_history :=
           pushBounded 100 ⟨evidence_span, now, card_type⟩ st.evidence_history })
  let cooldownStep : SuppressionDecision × SuppressionState :=
    match st.cooldowns.lookup card_type with
    | some t =>
      let cooldown_period := cooldownFor card_type
      if now - t < cooldown_period then
        ({ show_card := false, reason := "cooldown_active", suppressed_for := none,
           cooldown_remaining := some (cooldown_period - (now - t)),
           message := "Cooldown active" }, st)
      else dupStep
    | none => dupStep
  match st.handled_cards.lookup handled_key with
  | some t =>
    if now - t < SUPPRESSION_WINDOW then
      ({ show_card := false, reason := "recently_handled",
         suppressed_for := some (SUPPRESSION_WINDOW - (now - t)),
         cooldown_remaining := none, message := "Card already shown" }, st)
    else cooldownStep
  | none => cooldownStep

/-- `mark_handled(card_type, evidence_span)` including `_cleanup_old_entries`
(`max_age = 600`). -/
def markHandled (st : SuppressionState) (now : ℚ) (card_type evidence_span : String) :
    SuppressionState :=
  let handled_key := card_type ++ ":" ++ evidence_span
  let handled1 := (handled_key, now) :: st.handled_cards.filter (fun e => e.1 ≠ handled_key)
  let cooldowns1 := (card_type, now) :: st.cooldowns.filter (fun e => e.1 ≠ card_type)
  { handled_cards := handled1.filter (fun e => now - e.2 < 600)
    cooldowns := cooldowns1.filter (fun e => now - e.2 < cooldownFor e.1)
    evidence_history := st.evidence_history }

/-- `SuppressionEngine.reset()`. -/
def suppressionReset : SuppressionState := ⟨[], [], []⟩

/-! The three suppression checks as standalone predicates, used to state that
`should_show_card` applies them in order with first match winning. -/

/-- Check (a): the exact `(card_type, evidence_span)` pair was marked handled
within `SUPPRESSION_WINDOW`. -/
def handledActive (st : SuppressionState) (now : ℚ) (card_type evidence_span : String) : Bool :=
  match st.handled_cards.lookup (card_type ++ ":" ++ evidence_span) with
  | some t => decide (now - t < SUPPRESSION_WINDOW)
  | none => false

/-- Check (b): the category cooldown for `card_type` is still running. -/
def cooldownActive (st : SuppressionState) (now : ℚ) (card_type : String) : Bool :=
  match st.cooldowns.lookup card_type with
  | some t => decide (now - t < cooldownFor card_type)
  | none => false

/-! ## guardrails.py -/

/-- The mutable fields of a `GuardrailEngine` instance (both deques have
`maxlen=10`). -/
structure GuardrailState where
  last_card_time : Option ℚ
  recent_objections : List String
  objection_timestamps : List ℚ
deriving DecidableEq, Repr

/-- `self.DEBOUNCE_SECONDS = 30`. -/
def DEBOUNCE_SECONDS : ℚ := 30

/-- `self.MAX_CARDS_PER_5MIN = 3`. -/
def MAX_CARDS_PER_5MIN : Nat := 3

/-- The guardrail debounce check: a card was shown less than
`DEBOUNCE_SECONDS` ago. -/
def debounceActive (st : GuardrailState) (now : ℚ) : Bool :=
  match st.last_card_time with
  | some t => decide (now - t < DEBOUNCE_SECONDS)
  | none => false

/-- The guardrail repeat-type check:
`self.recent_objections and self.recent_objections[-1] == objection_type`. -/
def repeatTypeActive (st : GuardrailState) (objection_type : String) : Bool :=
  st.recent_objections.getLast? = some objection_type

/-- The guardrail rate-cap check: at least `MAX_CARDS_PER_5MIN` cards shown
in the trailing 5 minutes. -/
def rateCapActive (st : GuardrailState) (now : ℚ) : Bool :=
  MAX_CARDS_PER_5MIN ≤ (st.objection_timestamps.filter (fun ts => now - 300 < ts)).length

/-- `GuardrailEngine.should_show_card(objection_type)`: returns the bare
boolean together with the updated engine state. -/
def guardrailShouldShow (st : GuardrailState) (now : ℚ) (objection_type : String) :
    Bool × GuardrailState :=
  if debounceActive st now then (false, st)
  else if repeatTypeActive st objection_type then (false, st)
  else if rateCapActive st now then (false, st)
  else
    (true,
     { last_card_time := some now
       recent_objections := pushBounded 10 objection_type st.recent_objections
       objection_timestamps := pushBounded 10 now st.objection_timestamps })

/-! ## rate_limit_handler.py -/

/-- The response dict returned by an API call, with just the keys probed by
`_is_rate_limited` / `_is_error`; `none` models an absent key. -/
structure ApiResult where
  status : Option String
  status_code : Option Nat
  error : Option String
  error_type : Option String
deriving DecidableEq, Repr

/-- Python `needle in hay` for strings: substring containment. -/
def listContainsSub (needle : List Char) : List Char → Bool
  | [] => needle.isEmpty
  | c :: rest => needle.isPrefixOf (c :: rest) || listContainsSub needle rest

/-- `_is_rate_limited(result)`. -/
def isRateLimited (r : ApiResult) : Bool :=
  r.status_code == some 429 ||
  r.error_type == some "rate_limit" ||
  listContainsSub "rate limit".data (pyLower (r.error.getD "")).data

/-- `_is_error(result)`. -/
def isErrorResult (r : ApiResult) : Bool :=
  r.status == some "error" || (pyTruthyStr r.error && ! isRateLimited r)

/-- One entry of `self.rate_limit_hits` (a deque with `maxlen=100`). -/
structure RateLimitHit where
  timestamp : ℚ
  attempt : Nat
  delay : ℚ
deriving DecidableEq, Repr

/-- The mutable fields of a `RateLimitHandler` instance. -/
structure HandlerState where
  rate_limit_hits : List RateLimitHit
  current_backoff : ℚ
  last_rate_limit_time : Option ℚ
deriving DecidableEq, Repr

/-- The state of a freshly constructed `RateLimitHandler`. -/
def initHandlerState : HandlerState := ⟨[], 0, none⟩

/-- `_calculate_backoff(attempt)`:
`min(base_delay * 2 ** (attempt - 1), 60.0)`. -/
def calcBackoff (base_delay : ℚ) (attempt : Nat) : ℚ :=
  min (base_delay * 2 ^ (attempt - 1)) 60

/-- The dict returned by `execute_with_backoff`, instrumented with the total
number of invocations of the operation (`calls`) and the final handler state
(`state`). `message` is `""` on the success path, which returns no message. -/
structure ExecResult where
  status : String
  message : String
  attempts : Nat
  last_error : Option String
  data : Option ApiResult
  calls : Nat
  state : HandlerState
deriving DecidableEq, Repr

/-- The `while attempt < self.max_retries` loop of `execute_with_backoff`.
The operation is modelled as `func : Nat → Except String ApiResult`, giving
the result of its `idx`-th invocation (`Except.error e` models a raised
exception with text `str(e)`); `clock idx` is `datetime.now()` during that
invocation. `remaining = max_retries - attempt` is the loop variant, so the
entry guard `attempt < max_retries` is `remaining > 0` and the post-increment
guard `attempt < max_retries` is the inner `0 < remaining`. -/
def execGo (maxRetries : Nat) (base_delay : ℚ) (func : Nat → Except String ApiResult)
    (clock : Nat → ℚ) :
    Nat → Nat → Option String → Nat → HandlerState → ExecResult
  | 0, attempt, lastErr, idx, st =>
    { status := "error", message := "Max retries reached", attempts := attempt,
      last_error := some (pyStr lastErr), data := none, calls := idx, state := st }
  | remaining + 1, attempt, lastErr, idx, st =>
    match func idx with
    | Except.ok result =>
      if isRateLimited result then
        let attempt1 := attempt + 1
        let delay := calcBackoff base_delay attempt1
        let st1 : HandlerState :=
          { rate_limit_hits := pushBounded 100 ⟨clock idx, attempt1, delay⟩ st.rate_limit_hits
            current_backoff := delay
            last_rate_limit_time := some (clock idx) }
        if 0 < remaining then
          execGo maxRetries base_delay func clock remaining attempt1 lastErr (idx + 1) st1
        else
          { status := "rate_limit_exceeded",
            message := "Rate limit hit after " ++ toString maxRetries ++ " attempts",
            attempts := attempt1, last_error := some (pyStr lastErr), data := none,
            calls := idx + 1, state := st1 }
      else if isErrorResult result then
        let lastErr1 := result.error.getD "Unknown error"
        let attempt1 := attempt + 1
        if 0 < remaining then
          execGo maxRetries base_delay func clock remaining attempt1 (some lastErr1) (idx + 1) st
        else
          { status := "error",
            message := "Failed after " ++ toString maxRetries ++ " attempts",
            attempts := attempt1, last_error := some lastErr1, data := none,
            calls := idx + 1, state := st }
      else
        { status := "success", message := "", attempts := attempt + 1,
          last_error := none, data := some result, calls := idx + 1, state := st }
    | Except.error e =>
      let attempt1 := attempt + 1
      if 0 < remaining then
        execGo maxRetries base_delay func clock remaining attempt1 (some e) (idx + 1) st
      else
        { status := "error",
          message := "Exception after " ++ toString maxRetries ++ " attempts: " ++ e,
          attempts := attempt1, last_error := some e, data := none,
          calls := idx + 1, state := st }

/-- `execute_with_backoff(func, *args, **kwargs)` starting from handler state
`st`. -/
def executeWithBackoff (maxRetries : Nat) (base_delay : ℚ)
    (func : Nat → Except String ApiResult) (clock : Nat → ℚ) (st : HandlerState) :
    ExecResult :=
  execGo maxRetries base_delay func clock maxRetries 0 none 0 st

/-- The `recent_hits_5min` count of `get_stats()` at time `now`
(`timedelta(minutes=5)` = 300 seconds). -/
def recentHits5min (st : HandlerState) (now : ℚ) : Nat :=
  (st.rate_limit_hits.filter (fun hit => now - 300 < hit.timestamp)).length

/-- The `is_backing_off` flag of `get_stats()`: `current_backoff > 0`. -/
def isBackingOff (st : HandlerState) : Bool := decide (0 < st.current_backoff)

/-- `RateLimitHandler.reset()`. -/
def handlerReset : HandlerState := ⟨[], 0, none⟩

/-! ## a365_integration.py -/

/-- The `status` field computed by `get_rate_limit_status()` from the
handler's stats. -/
def getRateLimitStatus (st : HandlerState) (now : ℚ) : String :=
  if isBackingOff st then "backing_off"
  else if 3 < recentHits5min st now then "rate_limited"
  else "normal"

/-- Whether a call outcome is a non-success for `execute_with_backoff`: a
raised exception, a rate-limited response, or an error response. -/
def isFailure : Except String ApiResult → Bool
  | Except.error _ => true
  | Except.ok r => isRateLimited r || isErrorResult r

/-! ## ingest.py

Document text extraction (pypdf / Tesseract OCR) is an external text
producer: the source document is modelled as `Option (List String)` — the
extracted text of each page, `none` when the playbook file does not exist.
The embedding model and the FAISS index construction are opaque functions. -/

/-- The line-level filter at the top of `chunk_page_text`: drop structural
header lines (`"---"` and `"Title:"` prefixes after stripping). -/
def stripHeaderLines (page_text : String) : String :=
  pyJoinChar (Char.ofNat 10)
    ((pySplitlines page_text).filter
      (fun line => ¬ (pyStartsWith (pyTrim line) "---" = true) ∧
                   ¬ (pyStartsWith (pyTrim line) "Title:" = true)))

/-- `re.split(r'\n\n+', text)`: split on each maximal run of two or more
newlines. `fuel` bounds the recursion; each step consumes at least one
character, so `length + 1` suffices. -/
def splitParasGo : Nat → List Char → List Char → List (List Char)
  | 0, acc, _ => [acc.reverse]
  | _ + 1, acc, [] => [acc.reverse]
  | fuel + 1, acc, c :: rest =>
    if c = Char.ofNat 10 ∧ rest.head? = some (Char.ofNat 10) then
      acc.reverse :: splitParasGo fuel [] ((rest.drop 1).dropWhile (· = Char.ofNat 10))
    else splitParasGo fuel (c :: acc) rest

/-- `re.split(r'\n\n+', page_text)`. -/
def splitParas (s : String) : List String :=
  (splitParasGo (s.data.length + 1) [] s.data).map String.mk

/-- `re.split(r'(?<=[.!?]) +', line)`: split after sentence punctuation,
consuming the following run of spaces. -/
def sentSplitGo : Nat → List Char → List Char → List (List Char)
  | 0, acc, _ => [acc.reverse]
  | _ + 1, acc, [] => [acc.reverse]
  | fuel + 1, acc, c :: rest =>
    if (c = '.' ∨ c = '!' ∨ c = '?') ∧ rest.head? = some ' ' then
      (c :: acc).reverse :: sentSplitGo fuel [] (rest.dropWhile (· = ' '))
    else sentSplitGo fuel (c :: acc) rest

/-- `re.split(r'(?<=[.!?]) +', line)`. -/
def sentenceSplit (s : String) : List String :=
  (sentSplitGo (s.data.length + 1) [] s.data).map String.mk

/-- The sentence-reassembly loop for a single over-long line
(`temp_chunk` accumulation in `chunk_page_text`). -/
def sentLoop : List String → String → List String → List String
  | [], temp_chunk, out =>
    if pyTrim temp_chunk ≠ "" then out ++ [pyTrim temp_chunk] else out
  | sent :: rest, temp_chunk, out =>
    if temp_chunk.length + sent.length + 1 ≤ 1000 then
      sentLoop rest (temp_chunk ++ sent ++ " ") out
    else
      sentLoop rest (sent ++ " ")
        (if pyTrim temp_chunk ≠ "" then out ++ [pyTrim temp_chunk] else out)

/-- The line-reassembly loop of `chunk_page_text` (stage 2): returns the
chunks emitted so far and the final `current_chunk`. -/
def lineLoop : List String → String → List String → List String × String
  | [], current_chunk, out => (out, current_chunk)
  | rawLine :: rest, current_chunk, out =>
    let line := pyTrim rawLine
    if line = "" then lineLoop rest current_chunk out
    else if current_chunk.length + line.length + 1 ≤ 1000 then
      lineLoop rest (current_chunk ++ line ++ " ") out
    else
      let out1 := if pyTrim current_chunk ≠ "" then out ++ [pyTrim current_chunk] else out
      if 1000 < line.length then
        lineLoop rest "" (out1 ++ sentLoop (sentenceSplit line) "" [])
      else
        let stripped := pyTrim current_chunk
        let overlap := if 100 ≤ stripped.length then pyTakeLast stripped 100 else stripped
        lineLoop rest (overlap ++ " " ++ line ++ " ") out1

/-- Stage 2 of `chunk_page_text` for one over-long semantic chunk. -/
def stageTwo (semantic_chunk : String) : List String :=
  let r := lineLoop (pySplitChar (Char.ofNat 10) semantic_chunk) "" []
  if pyTrim r.2 ≠ "" then r.1 ++ [pyTrim r.2] else r.1

/-- `chunk_page_text(page_text)`. -/
def chunkPageText (page_text0 : String) : List String :=
  let page_text := stripHeaderLines page_text0
  (splitParas page_text).foldl
    (fun acc sc0 =>
      let sc := pyTrim sc0
      if sc = "" then acc
      else if sc.length ≤ 1000 then acc ++ [sc]
      else acc ++ stageTwo sc) []

/-- Python `str.isupper()` restricted to ASCII: at least one cased character
and no lowercase character. -/
def pyIsUpper (s : String) : Bool :=
  s.data.any (fun c => c.isUpper || c.isLower) && s.data.all (fun c => ! c.isLower)

/-- `detect_section(page_text)`: the last heading-like line of the page. -/
def detectSection (page_text : String) : Option String :=
  (pySplitlines page_text).foldl
    (fun sec line =>
      let stripped := pyTrim line
      if stripped ≠ "" ∧ pyIsUpper stripped = true ∧ stripped.length < 80 ∧
         ¬ (pyEndsWith stripped "." = true)
      then some stripped else sec) none

/-- One record of the chunk database written by `ingest_playbook`. -/
structure ChunkRecord where
  chunk_id : String
  text_content : String
  metadata : ChunkMetadata
deriving DecidableEq, Repr

/-- `os.path.basename(PLAYBOOK_FILE)`. -/
def PLAYBOOK_BASENAME : String := "gold_playbook.pdf"

/-- The per-page candidate chunks of `ingest_playbook`, before the 15-char
noise filter: each candidate is `(page_num, section, chunk)` with pages
numbered from 1 and pages with no extracted text skipped. -/
def pageCandidates (pages : List String) : List (Nat × Option String × String) :=
  (pages.enum.map
    (fun pi =>
      if pyTrim pi.2 = "" then []
      else (chunkPageText pi.2).map (fun c => (pi.1 + 1, detectSection pi.2, c)))).foldr
    (· ++ ·) []

/-- The `database_records` list of `ingest_playbook`: candidates whose
stripped text is at least 15 characters, with `uuidGen j` modelling the
`uuid.uuid4()` drawn for the `j`-th surviving record and `now` the
`str(datetime.now())` timestamp. -/
def buildRecords (pages : List String) (uuidGen : Nat → String) (now : String) :
    List ChunkRecord :=
  (((pageCandidates pages).filter (fun t => ¬ (pyTrim t.2.2).length < 15)).enum).map
    (fun jt =>
      { chunk_id := uuidGen jt.1
        text_content := pyTrim jt.2.2.2
        metadata :=
          { source_file := some PLAYBOOK_BASENAME
            page := some jt.2.1
            section_heading := jt.2.2.1
            ingested_at := some now } })

/-- The two files written by `ingest_playbook`: the JSON chunk store and the
FAISS index (modelled as the list of embedded vectors). -/
structure IngestFS where
  vector_store : Option (List ChunkRecord)
  vector_index : Option (List (List ℚ))

/-- `ingest_playbook()`: `source_pages = none` models a missing playbook
file; `embed` is the opaque sentence-transformer. The function returns the
filesystem state after the run. -/
def ingestPlaybook (source_pages : Option (List String)) (uuidGen : Nat → String)
    (embed : String → List ℚ) (now : String) (fs : IngestFS) : IngestFS :=
  match source_pages with
  | none => fs
  | some pages =>
    let records := buildRecords pages uuidGen now
    if records = [] then fs
    else
      { vector_store := some records
        vector_index := some (records.map (fun r => embed r.text_content)) }

/-! ## Supporting lemmas -/

theorem snd_mem_of_mem_enum {α : Type} {p : Nat × α} {l : List α} (h : p ∈ l.enum) :
    p.2 ∈ l := by
  have h2 := List.mem_enum_iff_getElem?.mp h
  obtain ⟨hlt, heq⟩ := List.getElem?_eq_some.mp h2
  exact heq ▸ List.getElem_mem hlt

/-! ## Claim C7 -/

/-- C7: for empty retrieval input, `generate_cards` returns exactly one
fallback card with `grounded = false`, `confidence_score = 0.0`, an empty
`source_chunk_ids` list, and the fixed clarifying-question body (which ends
with a question mark). -/
theorem C7_empty_input_fallback (transcript_window : String) :
    generateCards transcript_window [] = [fallbackCard] ∧
    fallbackCard.grounded = false ∧
    fallbackCard.confidence_score = 0 ∧
    fallbackCard.source_chunk_ids = [] ∧
    fallbackCard.body =
      "I couldn" ++ String.mk [Char.ofNat 39] ++
        "t find a match in the playbook. Could you ask a clarifying question to narrow down the topic?" ∧
    pyEndsWith fallbackCard.body "?" = true := by
  refine ⟨rfl, rfl, rfl, rfl, rfl, ?_⟩
  decide

/-! ## Claim C1 -/

/-- C1: for non-empty retrieval input, every card returned by
`generate_cards` is grounded, cites exactly one source chunk from the input,
and its body is that chunk's full `text_content` when it fits in
`MAX_BODY_LENGTH`, and otherwise the first `MAX_BODY_LENGTH` characters
followed by the `"..."` truncation marker — so no grounded card body
contains text absent from the retrieved set. -/
theorem C1_grounded_body_from_source (transcript_window : String)
    (retrieved_chunks : List RetrievedChunk) (hne : retrieved_chunks ≠ [])
    (card : Card) (hc : card ∈ generateCards transcript_window retrieved_chunks) :
    card.grounded = true ∧
    ∃ chunk ∈ retrieved_chunks,
      card.source_chunk_ids = [chunk.chunk_id] ∧
      ((chunk.text_content.length ≤ MAX_BODY_LENGTH ∧ card.body = chunk.text_content) ∨
       (MAX_BODY_LENGTH < chunk.text_content.length ∧
        card.body = pyTake chunk.text_content MAX_BODY_LENGTH ++ "...")) := by
  unfold generateCards at hc
  rw [if_neg hne] at hc
  obtain ⟨p, hp, hcard⟩ := List.mem_map.mp hc
  have hchunk : p.2 ∈ retrieved_chunks :=
    List.take_subset 3 retrieved_chunks (snd_mem_of_mem_enum hp)
  subst hcard
  refine ⟨rfl, p.2, hchunk, rfl, ?_⟩
  unfold groundedCard truncateBody
  by_cases h : MAX_BODY_LENGTH < p.2.text_content.length
  · exact Or.inr ⟨h, by simp [h]⟩
  · exact Or.inl ⟨Nat.le_of_not_lt h, by simp [h]⟩

/-- The concrete chunk used by the C1 witness (the mock chunk of the
card_generator test block). -/
def c1WitnessChunk : RetrievedChunk :=
  ⟨"uuid-1234-abcd", "Pricing starts at $99/mo for the Standard plan.", 1219/1000,
    ⟨some "gold_playbook.pdf", some 1, some "PRICING", none⟩⟩

/-- Witness for C1 at a concrete input: a one-chunk retrieval set whose text
fits under the cap. -/
theorem C1_grounded_body_from_source_witness :
    ([c1WitnessChunk] : List RetrievedChunk) ≠ [] ∧
    (groundedCard 0 c1WitnessChunk).grounded = true := by
  constructor
  · exact fun h => List.cons_ne_nil _ _ h
  · exact (C1_grounded_body_from_source "How much does it cost?" [c1WitnessChunk]
      (List.cons_ne_nil _ _)
      (groundedCard 0 c1WitnessChunk)
      (by
        rw [show generateCards "How much does it cost?" [c1WitnessChunk] =
          [groundedCard 0 c1WitnessChunk] from rfl]
        exact List.mem_singleton.mpr rfl)).1

/-! ## Claim C8 -/

/-- A retrieval hit at L2 distance 0.6, used to separate the two threshold
constants. -/
def c8Chunk : RetrievedChunk := ⟨"chunk-1", "Pricing details.", 3/5, ⟨none, none, none, none⟩⟩

theorem pyRound2_thirteen_twentyfifths : pyRound2 (13/25 : ℚ) = 13/25 := by
  unfold pyRound2 pyRoundHalfEven
  rw [show (13/25 : ℚ) * 100 = ((52 : ℤ) : ℚ) by norm_num]
  rw [Int.fract_intCast, if_neg (by norm_num), round_intCast]
  norm_num

/-- C8 counterexample: for the grounded card generated from a chunk at
distance 0.6, `confidence_score` is `round(1 − 0.6/1.25, 2) = 0.52`, which is
not `clamp(1 − 0.6/threshold, 0, 1) = 0.5` for the retrieval-stage threshold
`DISTANCE_THRESHOLD = 1.2` the claim says is shared; moreover the two
threshold constants differ. -/
theorem C8_confidence_counterexample :
    (generateCards "How much does it cost?" [c8Chunk]).map Card.confidence_score = [13/25] ∧
    (13/25 : ℚ) ≠ max 0 (min 1 (1 - (3/5 : ℚ) / DISTANCE_THRESHOLD)) ∧
    GROUNDING_THRESHOLD ≠ DISTANCE_THRESHOLD := by
  refine ⟨?_, ?_, ?_⟩
  · rw [show generateCards "How much does it cost?" [c8Chunk] = [groundedCard 0 c8Chunk]
      from rfl]
    show [pyRound2 (max 0 (min 1 (1 - c8Chunk.score / GROUNDING_THRESHOLD)))] = [13/25]
    rw [show max 0 (min 1 (1 - c8Chunk.score / GROUNDING_THRESHOLD)) = 13/25 by
      unfold c8Chunk GROUNDING_THRESHOLD
      rw [show (1 - (3/5 : ℚ) / (5/4)) = 13/25 by norm_num]
      rw [min_eq_right (by norm_num), max_eq_right (by norm_num)]]
    rw [pyRound2_thirteen_twentyfifths]
  · unfold DISTANCE_THRESHOLD
    rw [show (1 - (3/5 : ℚ) / (6/5)) = 1/2 by norm_num]
    rw [min_eq_right (by norm_num), max_eq_right (by norm_num)]
    norm_num
  · unfold GROUNDING_THRESHOLD DISTANCE_THRESHOLD
    norm_num

/-- C8 amended: every grounded card's `confidence_score` equals
`round(clamp(1 − distance/GROUNDING_THRESHOLD, 0, 1), 2)` where
`GROUNDING_THRESHOLD = 1.25` is the card generator's own constant, which is
not shared with (and differs from) the retrieval filter's
`DISTANCE_THRESHOLD = 1.2`. -/
theorem C8_confidence_formula (transcript_window : String)
    (retrieved_chunks : List RetrievedChunk) (card : Card)
    (hc : card ∈ generateCards transcript_window retrieved_chunks)
    (hg : card.grounded = true) :
    GROUNDING_THRESHOLD ≠ DISTANCE_THRESHOLD ∧
    ∃ chunk ∈ retrieved_chunks,
      card.confidence_score =
        pyRound2 (max 0 (min 1 (1 - chunk.score / GROUNDING_THRESHOLD))) := by
  refine ⟨by unfold GROUNDING_THRESHOLD DISTANCE_THRESHOLD; norm_num, ?_⟩
  unfold generateCards at hc
  by_cases hne : retrieved_chunks = []
  · rw [if_pos hne] at hc
    rw [List.mem_singleton.mp hc] at hg
    exact absurd hg (by decide)
  · rw [if_neg hne] at hc
    obtain ⟨p, hp, hcard⟩ := List.mem_map.mp hc
    have hchunk : p.2 ∈ retrieved_chunks :=
      List.take_subset 3 retrieved_chunks (snd_mem_of_mem_enum hp)
    exact ⟨p.2, hchunk, hcard ▸ rfl⟩

/-- Witness for the amended C8 at a concrete grounded card. -/
theorem C8_confidence_formula_witness :
    GROUNDING_THRESHOLD ≠ DISTANCE_THRESHOLD ∧
    ∃ chunk ∈ [c8Chunk],
      (groundedCard 0 c8Chunk).confidence_score =
        pyRound2 (max 0 (min 1 (1 - chunk.score / GROUNDING_THRESHOLD))) :=
  C8_confidence_formula "How much does it cost?" [c8Chunk] (groundedCard 0 c8Chunk)
    (by
      rw [show generateCards "How much does it cost?" [c8Chunk] = [groundedCard 0 c8Chunk]
        from rfl]
      exact List.mem_singleton.mpr rfl)
    rfl

/-! ## Claim C4 -/

theorem shouldShowCard_characterization (st : SuppressionState) (now : ℚ)
    (card_type evidence_span : String) :
    ((shouldShowCard st now card_type evidence_span).1).reason =
      (if handledActive st now card_type evidence_span then "recently_handled"
       else if cooldownActive st now card_type then "cooldown_active"
       else if isDuplicateEvidence st now evidence_span then "duplicate_evidence"
       else "allowed") ∧
    (((shouldShowCard st now card_type evidence_span).1).show_card = true ↔
      (handledActive st now card_type evidence_span = false ∧
       cooldownActive st now card_type = false ∧
       isDuplicateEvidence st now evidence_span = false)) := by
  cases hl : List.lookup (card_type ++ ":" ++ evidence_span) st.handled_cards with
  | some t =>
    cases hc : List.lookup card_type st.cooldowns with
    | some t2 =>
      by_cases hw : now - t < SUPPRESSION_WINDOW
      · simp [shouldShowCard, handledActive, cooldownActive, hl, hc, hw]
      · by_cases hcw : now - t2 < cooldownFor card_type
        · simp [shouldShowCard, handledActive, cooldownActive, hl, hc, hw, hcw]
        · by_cases hd : isDuplicateEvidence st now evidence_span = true <;>
            simp [shouldShowCard, handledActive, cooldownActive, hl, hc, hw, hcw, hd]
    | none =>
      by_cases hw : now - t < SUPPRESSION_WINDOW
      · simp [shouldShowCard, handledActive, cooldownActive, hl, hc, hw]
      · by_cases hd : isDuplicateEvidence st now evidence_span = true <;>
          simp [shouldShowCard, handledActive, cooldownActive, hl, hc, hw, hd]
  | none =>
    cases hc : List.lookup card_type st.cooldowns with
    | some t2 =>
      by_cases hcw : now - t2 < cooldownFor card_type
      · simp [shouldShowCard, handledActive, cooldownActive, hl, hc, hcw]
      · by_cases hd : isDuplicateEvidence st now evidence_span = true <;>
          simp [shouldShowCard, handledActive, cooldownActive, hl, hc, hcw, hd]
    | none =>
      by_cases hd : isDuplicateEvidence st now evidence_span = true <;>
        simp [shouldShowCard, handledActive, cooldownActive, hl, hc, hd]

/-- C4 counterexample: from a fresh engine, a first card of type `"price"`
is allowed at t = 0; a second call one second later with the same
`card_type` (different evidence span) is also allowed with reason
`"allowed"` — the claimed repeat-type guard ("if the immediately preceding
shown card had the same type, reject with duplicate_type") does not exist in
`SuppressionEngine.should_show_card`. -/
theorem C4_no_repeat_type_guard :
    ((shouldShowCard suppressionReset 0 "price" "evidence-1").1).show_card = true ∧
    ((shouldShowCard ((shouldShowCard suppressionReset 0 "price" "evidence-1").2)
        1 "price" "evidence-2").1).show_card = true ∧
    ((shouldShowCard ((shouldShowCard suppressionReset 0 "price" "evidence-1").2)
        1 "price" "evidence-2").1).reason = "allowed" := by
  refine ⟨?_, ?_, ?_⟩ <;> decide

/-- C4 amended: `SuppressionEngine.should_show_card` applies exactly three
checks in this order, first match wins — (a) evidence-handled window
("recently_handled"), (b) category cooldown ("cooldown_active"),
(c) duplicate-evidence guard ("duplicate_evidence") — and always returns a
structured decision whose `show` field is true exactly when no check fires.
There is no repeat-type guard and no 5-minute rate cap in the suppression
engine; those checks exist only in the separate `GuardrailEngine`, which
applies debounce, then repeat-type, then rate cap, and returns a bare
boolean. -/
theorem C4_check_order (st : SuppressionState) (gst : GuardrailState) (now : ℚ)
    (card_type evidence_span objection_type : String) :
    ((shouldShowCard st now card_type evidence_span).1).reason =
      (if handledActive st now card_type evidence_span then "recently_handled"
       else if cooldownActive st now card_type then "cooldown_active"
       else if isDuplicateEvidence st now evidence_span then "duplicate_evidence"
       else "allowed") ∧
    (((shouldShowCard st now card_type evidence_span).1).show_card = true ↔
      (handledActive st now card_type evidence_span = false ∧
       cooldownActive st now card_type = false ∧
       isDuplicateEvidence st now evidence_span = false)) ∧
    ((guardrailShouldShow gst now objection_type).1 =
      (if debounceActive gst now then false
       else if repeatTypeActive gst objection_type then false
       else if rateCapActive gst now then false
       else true)) := by
  refine ⟨(shouldShowCard_characterization st now card_type evidence_span).1,
          (shouldShowCard_characterization st now card_type evidence_span).2, ?_⟩
  unfold guardrailShouldShow
  by_cases h1 : debounceActive gst now = true
  · simp [h1]
  · by_cases h2 : repeatTypeActive gst objection_type = true
    · simp [h1, h2]
    · by_cases h3 : rateCapActive gst now = true <;> simp [h1, h2, h3]

/-! ## Claim C3 -/

theorem collectResults_sound (db : List DbRec) :
    ∀ hits : List (Int × ℚ),
      (∀ p ∈ hits, p.1 = -1 ∨ (0 ≤ p.1 ∧ p.1 < (db.length : Int))) →
      ∃ out, collectResults db hits = some out ∧
        (out.map RetrievalResult.score).Sublist (hits.map Prod.snd) ∧
        ∀ r ∈ out, r.score < DISTANCE_THRESHOLD := by
  intro hits
  induction hits with
  | nil => exact fun _ => ⟨[], rfl, List.Sublist.refl _, by simp⟩
  | cons p rest ih =>
    intro hvalid
    obtain ⟨idx, sc⟩ := p
    obtain ⟨out, hout, hsub, hsc⟩ := ih (fun q hq => hvalid q (List.mem_cons_of_mem _ hq))
    by_cases hidx : idx = -1
    · refine ⟨out, ?_, hsub.cons _, hsc⟩
      simpa [collectResults, hidx] using hout
    · by_cases hthr : DISTANCE_THRESHOLD ≤ sc
      · refine ⟨out, ?_, hsub.cons _, hsc⟩
        simpa [collectResults, hidx, hthr] using hout
      · have hv := hvalid (idx, sc) (List.mem_cons_self _ _)
        rcases hv with h | ⟨h0, hlt⟩
        · exact absurd h hidx
        · have hnat : idx.toNat < db.length := by omega
          have hsome : pyIndex db idx = some (db.get ⟨idx.toNat, hnat⟩) := by
            unfold pyIndex
            rw [if_pos h0]
            simp [List.getElem?_eq_getElem hnat]
          refine ⟨{ chunk_id := (db.get ⟨idx.toNat, hnat⟩).chunk_id, score := sc,
                    confidence := 19/20, grounded := true,
                    text_content := (db.get ⟨idx.toNat, hnat⟩).text_content,
                    metadata := (db.get ⟨idx.toNat, hnat⟩).metadata } :: out, ?_, ?_, ?_⟩
          · rw [show collectResults db ((idx, sc) :: rest) =
              (collectResults db rest).map (fun o =>
                { chunk_id := (db.get ⟨idx.toNat, hnat⟩).chunk_id, score := sc,
                  confidence := 19/20, grounded := true,
                  text_content := (db.get ⟨idx.toNat, hnat⟩).text_content,
                  metadata := (db.get ⟨idx.toNat, hnat⟩).metadata } :: o) by
                simp [collectResults, hidx, hthr, hsome]]
            rw [hout]
            rfl
          · simpa using hsub.cons₂ sc
          · intro r hr
            rcases List.mem_cons.mp hr with hh | ht
            · rw [hh]
              exact lt_of_not_le hthr
            · exact hsc r ht

theorem collectResults_all_filtered (db : List DbRec) :
    ∀ hits : List (Int × ℚ),
      (∀ p ∈ hits, p.1 = -1 ∨ DISTANCE_THRESHOLD ≤ p.2) →
      collectResults db hits = some [] := by
  intro hits
  induction hits with
  | nil => exact fun _ => rfl
  | cons p rest ih =>
    intro hall
    obtain ⟨idx, sc⟩ := p
    have hrest := ih (fun q hq => hall q (List.mem_cons_of_mem _ hq))
    have hv := hall (idx, sc) (List.mem_cons_self _ _)
    dsimp only at hv
    rcases hv with h | h
    · simpa [collectResults, h] using hrest
    · by_cases hidx : idx = -1
      · simpa [collectResults, hidx] using hrest
      · simpa [collectResults, hidx, h] using hrest

/-- C3: retrieval, abstracted over the k-NN oracle. Given the oracle's hit
list for a query (at most `k` rows, distances ascending, indices either `-1`
or in range — the FAISS output contract), `_run_retrieval` returns (without
raising) a list of length at most `k` whose scores are all strictly below
`DISTANCE_THRESHOLD` and ascend; when the index or the corpus is not loaded
it returns `[]`, and when no hit clears the threshold it returns `[]`
without ever touching the corpus. -/
theorem C3_retrieval_contract (k : Nat) (hits : List (Int × ℚ)) (db : List DbRec)
    (hlen : hits.length ≤ k)
    (hsorted : List.Sorted (· ≤ ·) (hits.map Prod.snd))
    (hvalid : ∀ p ∈ hits, p.1 = -1 ∨ (0 ≤ p.1 ∧ p.1 < (db.length : Int))) :
    (∃ out, retrieveChunks (some hits) (some db) = some out ∧
      out.length ≤ k ∧
      (∀ r ∈ out, r.score < DISTANCE_THRESHOLD) ∧
      List.Sorted (· ≤ ·) (out.map RetrievalResult.score)) ∧
    (∀ db2, retrieveChunks none db2 = some []) ∧
    (∀ s2, retrieveChunks (some s2) none = some []) ∧
    ((∀ p ∈ hits, p.1 = -1 ∨ DISTANCE_THRESHOLD ≤ p.2) →
      retrieveChunks (some hits) (some db) = some []) := by
  refine ⟨?_, fun db2 => rfl, fun s2 => rfl, ?_⟩
  · obtain ⟨out, hout, hsub, hsc⟩ := collectResults_sound db hits hvalid
    refine ⟨out, hout, ?_, hsc, ?_⟩
    · calc out.length = (out.map RetrievalResult.score).length := (List.length_map _ _).symm
        _ ≤ (hits.map Prod.snd).length := hsub.length_le
        _ = hits.length := List.length_map _ _
        _ ≤ k := hlen
    · exact List.Pairwise.sublist hsub hsorted
  · intro hall
    exact collectResults_all_filtered db hits hall

/-- Witness for C3: a two-hit oracle result over a two-record corpus, one
hit below the threshold and one above. -/
theorem C3_retrieval_contract_witness :
    ([((0 : Int), (0 : ℚ)), (1, 2)].length ≤ 3 ∧
     List.Sorted (· ≤ ·) ([((0 : Int), (0 : ℚ)), (1, 2)].map Prod.snd) ∧
     (∀ p ∈ [((0 : Int), (0 : ℚ)), (1, 2)],
        p.1 = -1 ∨ (0 ≤ p.1 ∧ p.1 < (([⟨"c0", "t0", ⟨none, none, none, none⟩⟩,
          ⟨"c1", "t1", ⟨none, none, none, none⟩⟩] : List DbRec).length : Int)))) ∧
    ∃ out, retrieveChunks (some [((0 : Int), (0 : ℚ)), (1, 2)])
        (some [⟨"c0", "t0", ⟨none, none, none, none⟩⟩,
               ⟨"c1", "t1", ⟨none, none, none, none⟩⟩]) = some out ∧
      out.length ≤ 3 ∧
      (∀ r ∈ out, r.score < DISTANCE_THRESHOLD) ∧
      List.Sorted (· ≤ ·) (out.map RetrievalResult.score) := by
  refine ⟨⟨by decide, ?_, by decide⟩, ?_⟩
  · simp [List.sorted_cons]
  · exact (C3_retrieval_contract 3 [((0 : Int), (0 : ℚ)), (1, 2)]
      [⟨"c0", "t0", ⟨none, none, none, none⟩⟩, ⟨"c1", "t1", ⟨none, none, none, none⟩⟩]
      (by decide)
      (by simp [List.sorted_cons])
      (by decide)).1

/-! ## Claims C5, C6, C10 -/

theorem calcBackoff_pos (b : ℚ) (hb : 0 < b) (n : Nat) : 0 < calcBackoff b n :=
  lt_min (mul_pos hb (pow_pos two_pos _)) (by norm_num)

theorem execGo_calls_le (M : Nat) (b : ℚ) (f : Nat → Except String ApiResult)
    (c : Nat → ℚ) :
    ∀ remaining attempt lastErr idx st,
      (execGo M b f c remaining attempt lastErr idx st).calls ≤ idx + remaining := by
  intro remaining
  induction remaining with
  | zero => intro attempt lastErr idx st; simp [execGo]
  | succ n ihn =>
    intro attempt lastErr idx st
    cases hf : f idx with
    | ok result =>
      by_cases hrl : isRateLimited result = true
      · by_cases hn : 0 < n
        · simp only [execGo, hf, hrl, if_true, hn]
          exact le_trans (ihn _ _ _ _) (by omega)
        · simp only [execGo, hf, hrl, if_true, hn, if_false]
          omega
      · by_cases he : isErrorResult result = true
        · by_cases hn : 0 < n
          · simp only [execGo, hf, hrl, he, if_true, if_false, Bool.false_eq_true, hn]
            exact le_trans (ihn _ _ _ _) (by omega)
          · simp only [execGo, hf, hrl, he, if_true, if_false, Bool.false_eq_true, hn]
            omega
        · simp only [execGo, hf, hrl, he, if_false, Bool.false_eq_true]
          omega
    | error e =>
      by_cases hn : 0 < n
      · simp only [execGo, hf, hn, if_true]
        exact le_trans (ihn _ _ _ _) (by omega)
      · simp only [execGo, hf, hn, if_false]
        omega

theorem mem_pushBounded {α : Type} {cap : Nat} {x y : α} {l : List α}
    (h : y ∈ pushBounded cap x l) : y ∈ l ∨ y = x := by
  unfold pushBounded at h
  by_cases hl : l.length < cap
  · rw [if_pos hl] at h
    rcases List.mem_append.mp h with h1 | h1
    · exact Or.inl h1
    · exact Or.inr (List.mem_singleton.mp h1)
  · rw [if_neg hl] at h
    rcases List.mem_append.mp h with h1 | h1
    · exact Or.inl (List.mem_of_mem_drop h1)
    · exact Or.inr (List.mem_singleton.mp h1)

theorem execGo_state_cases (M : Nat) (b : ℚ) (f : Nat → Except String ApiResult)
    (c : Nat → ℚ) (hb : 0 < b) :
    ∀ remaining attempt lastErr idx st,
      (execGo M b f c remaining attempt lastErr idx st).state = st ∨
      0 < (execGo M b f c remaining attempt lastErr idx st).state.current_backoff := by
  intro remaining
  induction remaining with
  | zero => intro attempt lastErr idx st; exact Or.inl rfl
  | succ n ihn =>
    intro attempt lastErr idx st
    cases hf : f idx with
    | ok result =>
      by_cases hrl : isRateLimited result = true
      · by_cases hn : 0 < n
        · simp only [execGo, hf, hrl, if_true, hn]
          rcases ihn (attempt + 1) lastErr (idx + 1)
              { rate_limit_hits := pushBounded 100
                  ⟨c idx, attempt + 1, calcBackoff b (attempt + 1)⟩ st.rate_limit_hits
                current_backoff := calcBackoff b (attempt + 1)
                last_rate_limit_time := some (c idx) } with h | h
          · rw [h]
            exact Or.inr (calcBackoff_pos b hb _)
          · exact Or.inr h
        · simp only [execGo, hf, hrl, if_true, hn, if_false]
          exact Or.inr (calcBackoff_pos b hb _)
      · by_cases he : isErrorResult result = true
        · by_cases hn : 0 < n
          · simp only [execGo, hf, hrl, he, if_true, if_false, Bool.false_eq_true, hn]
            exact ihn _ _ _ _
          · simp only [execGo, hf, hrl, he, if_true, if_false, Bool.false_eq_true, hn]
            exact Or.inl trivial
        · simp only [execGo, hf, hrl, he, if_false, Bool.false_eq_true]
          exact Or.inl trivial
    | error e =>
      by_cases hn : 0 < n
      · simp only [execGo, hf, hn, if_true]
        exact ihn _ _ _ _
      · simp only [execGo, hf, hn, if_false]
        exact Or.inl trivial

theorem execGo_hit_delays (M : Nat) (b : ℚ) (f : Nat → Except String ApiResult)
    (c : Nat → ℚ) :
    ∀ remaining attempt lastErr idx st,
      (∀ hit ∈ st.rate_limit_hits, hit.delay = calcBackoff b hit.attempt) →
      ∀ hit ∈ (execGo M b f c remaining attempt lastErr idx st).state.rate_limit_hits,
        hit.delay = calcBackoff b hit.attempt := by
  intro remaining
  induction remaining with
  | zero => intro attempt lastErr idx st hst; exact hst
  | succ n ihn =>
    intro attempt lastErr idx st hst
    have hst1 : ∀ hit ∈ pushBounded 100
        (⟨c idx, attempt + 1, calcBackoff b (attempt + 1)⟩ : RateLimitHit)
        st.rate_limit_hits, hit.delay = calcBackoff b hit.attempt := by
      intro hit hmem
      rcases mem_pushBounded hmem with h | h
      · exact hst hit h
      · rw [h]
    cases hf : f idx with
    | ok result =>
      by_cases hrl : isRateLimited result = true
      · by_cases hn : 0 < n
        · simp only [execGo, hf, hrl, if_true, hn]
          exact ihn _ _ _ _ hst1
        · simp only [execGo, hf, hrl, if_true, hn, if_false]
          exact hst1
      · by_cases he : isErrorResult result = true
        · by_cases hn : 0 < n
          · simp only [execGo, hf, hrl, he, if_true, if_false, Bool.false_eq_true, hn]
            exact ihn _ _ _ _ hst
          · simp only [execGo, hf, hrl, he, if_true, if_false, Bool.false_eq_true, hn]
            exact hst
        · simp only [execGo, hf, hrl, he, if_false, Bool.false_eq_true]
          exact hst
    | error e =>
      by_cases hn : 0 < n
      · simp only [execGo, hf, hn, if_true]
        exact ihn _ _ _ _ hst
      · simp only [execGo, hf, hn, if_false]
        exact hst

theorem execGo_calls_ge (M : Nat) (b : ℚ) (f : Nat → Except String ApiResult)
    (c : Nat → ℚ) :
    ∀ remaining attempt lastErr idx st,
      idx ≤ (execGo M b f c remaining attempt lastErr idx st).calls := by
  intro remaining
  induction remaining with
  | zero => intro attempt lastErr idx st; simp [execGo]
  | succ n ihn =>
    intro attempt lastErr idx st
    cases hf : f idx with
    | ok result =>
      by_cases hrl : isRateLimited result = true
      · by_cases hn : 0 < n
        · simp only [execGo, hf, hrl, if_true, hn]
          exact le_trans (by omega) (ihn _ _ _ _)
        · simp only [execGo, hf, hrl, if_true, hn, if_false]
          omega
      · by_cases he : isErrorResult result = true
        · by_cases hn : 0 < n
          · simp only [execGo, hf, hrl, he, if_true, if_false, Bool.false_eq_true, hn]
            exact le_trans (by omega) (ihn _ _ _ _)
          · simp only [execGo, hf, hrl, he, if_true, if_false, Bool.false_eq_true, hn]
            omega
        · simp only [execGo, hf, hrl, he, if_false, Bool.false_eq_true]
          omega
    | error e =>
      by_cases hn : 0 < n
      · simp only [execGo, hf, hn, if_true]
        exact le_trans (by omega) (ihn _ _ _ _)
      · simp only [execGo, hf, hn, if_false]
        omega

theorem execGo_calls_ge_one (M : Nat) (b : ℚ) (f : Nat → Except String ApiResult)
    (c : Nat → ℚ) (n attempt : Nat) (lastErr : Option String) (idx : Nat)
    (st : HandlerState) :
    idx + 1 ≤ (execGo M b f c (n + 1) attempt lastErr idx st).calls := by
  cases hf : f idx with
  | ok result =>
    by_cases hrl : isRateLimited result = true
    · by_cases hn : 0 < n
      · simp only [execGo, hf, hrl, if_true, hn]
        exact execGo_calls_ge M b f c n _ _ _ _
      · simp only [execGo, hf, hrl, if_true, hn, if_false]
        omega
    · by_cases he : isErrorResult result = true
      · by_cases hn : 0 < n
        · simp only [execGo, hf, hrl, he, if_true, if_false, Bool.false_eq_true, hn]
          exact execGo_calls_ge M b f c n _ _ _ _
        · simp only [execGo, hf, hrl, he, if_true, if_false, Bool.false_eq_true, hn]
          omega
      · simp only [execGo, hf, hrl, he, if_false, Bool.false_eq_true]
        omega
  | error e =>
    by_cases hn : 0 < n
    · simp only [execGo, hf, hn, if_true]
      exact execGo_calls_ge M b f c n _ _ _ _
    · simp only [execGo, hf, hn, if_false]
      omega

theorem execGo_persistent_failure (M : Nat) (b : ℚ) (f : Nat → Except String ApiResult)
    (c : Nat → ℚ) :
    ∀ remaining attempt lastErr st,
      remaining + attempt = M → 0 < remaining →
      (∀ i, attempt ≤ i → i < M → isFailure (f i) = true) →
      (execGo M b f c remaining attempt lastErr attempt st).calls = M ∧
      (execGo M b f c remaining attempt lastErr attempt st).attempts = M ∧
      (execGo M b f c remaining attempt lastErr attempt st).status =
        (match f (M - 1) with
         | Except.ok r => if isRateLimited r then "rate_limit_exceeded" else "error"
         | Except.error _ => "error") ∧
      (∃ msg, (execGo M b f c remaining attempt lastErr attempt st).last_error = some msg) := by
  intro remaining
  induction remaining with
  | zero => intro attempt lastErr st hM h0; omega
  | succ n ihn =>
    intro attempt lastErr st hM _ hfail
    have hattempt : attempt < M := by omega
    have hfa := hfail attempt le_rfl hattempt
    cases hf : f attempt with
    | ok result =>
      rw [hf] at hfa
      by_cases hrl : isRateLimited result = true
      · by_cases hn : 0 < n
        · simp only [execGo, hf, hrl, if_true, hn]
          exact ihn (attempt + 1) lastErr _ (by omega)
            hn (fun i hi1 hi2 => hfail i (by omega) hi2)
        · have hlast : attempt = M - 1 := by omega
          simp only [execGo, hf, hrl, if_true, hn, if_false]
          refine ⟨by omega, by omega, ?_, ⟨pyStr lastErr, rfl⟩⟩
          rw [← hlast, hf]
          simp [hrl]
      · have he : isErrorResult result = true := by
          simp only [isFailure, hrl, Bool.false_or] at hfa
          exact hfa
        by_cases hn : 0 < n
        · simp only [execGo, hf, hrl, he, if_true, if_false, Bool.false_eq_true, hn]
          exact ihn (attempt + 1) _ _ (by omega) hn (fun i hi1 hi2 => hfail i (by omega) hi2)
        · have hlast : attempt = M - 1 := by omega
          simp only [execGo, hf, hrl, he, if_true, if_false, Bool.false_eq_true, hn]
          refine ⟨by omega, by omega, ?_, ⟨result.error.getD "Unknown error", rfl⟩⟩
          rw [← hlast, hf]
          simp [hrl]
    | error e =>
      by_cases hn : 0 < n
      · simp only [execGo, hf, hn, if_true]
        exact ihn (attempt + 1) _ _ (by omega) hn (fun i hi1 hi2 => hfail i (by omega) hi2)
      · have hlast : attempt = M - 1 := by omega
        simp only [execGo, hf, hn, if_false]
        refine ⟨by omega, by omega, ?_, ⟨e, rfl⟩⟩
        rw [← hlast, hf]

/-- C5: with `max_retries = N ≥ 1`, `execute_with_backoff` invokes the
operation at most `N` times (for any behaviour of the operation, hence in
particular under persistent failure); the backoff delay computed for attempt
`n` is `min(base_delay * 2^(n-1), 60)`; these delays are non-decreasing in
the attempt number until the cap; and every recorded rate-limit hit carries
exactly that delay for its attempt. -/
theorem C5_backoff_budget (N : Nat) (b : ℚ) (f : Nat → Except String ApiResult)
    (c : Nat → ℚ) (hN : 1 ≤ N) (hb : 0 ≤ b) :
    (executeWithBackoff N b f c initHandlerState).calls ≤ N ∧
    (∀ n, calcBackoff b n = min (b * 2 ^ (n - 1)) 60) ∧
    (∀ n, 1 ≤ n → calcBackoff b n ≤ calcBackoff b (n + 1)) ∧
    (∀ hit ∈ (executeWithBackoff N b f c initHandlerState).state.rate_limit_hits,
      hit.delay = calcBackoff b hit.attempt) := by
  refine ⟨?_, fun n => rfl, ?_, ?_⟩
  · have h := execGo_calls_le N b f c N 0 none 0 initHandlerState
    simpa [executeWithBackoff] using h
  · intro n hn
    unfold calcBackoff
    refine min_le_min ?_ le_rfl
    refine mul_le_mul_of_nonneg_left ?_ hb
    exact pow_le_pow_right₀ (by norm_num) (by omega)
  · exact execGo_hit_delays N b f c N 0 none 0 initHandlerState (by simp [initHandlerState])

/-- Witness for C5: two persistently rate-limited attempts. -/
theorem C5_backoff_budget_witness :
    (executeWithBackoff 2 1 (fun _ => Except.ok ⟨none, some 429, none, none⟩)
      (fun _ => 0) initHandlerState).calls ≤ 2 :=
  (C5_backoff_budget 2 1 (fun _ => Except.ok ⟨none, some 429, none, none⟩)
    (fun _ => 0) (by decide) (by decide)).1

/-- C6: when every attempt fails, the retry budget is exhausted after exactly
`N` invocations and `N` attempts; the final status is "rate_limit_exceeded"
when the last failure was a rate limit and "error" otherwise (generic error
or exception); the outcome always carries a `last_error`; the result status
is never an uncaught exception — a raised exception is folded into the error
path, and when budget remains after an exception the loop invokes the
operation again. -/
theorem C6_exhaustion_statuses (N : Nat) (b : ℚ) (f : Nat → Except String ApiResult)
    (c : Nat → ℚ) (st : HandlerState) (hN : 1 ≤ N)
    (hfail : ∀ i, i < N → isFailure (f i) = true) :
    (executeWithBackoff N b f c st).calls = N ∧
    (executeWithBackoff N b f c st).attempts = N ∧
    (executeWithBackoff N b f c st).status =
      (match f (N - 1) with
       | Except.ok r => if isRateLimited r then "rate_limit_exceeded" else "error"
       | Except.error _ => "error") ∧
    (executeWithBackoff N b f c st).status ≠ "success" ∧
    (∃ msg, (executeWithBackoff N b f c st).last_error = some msg) ∧
    (∀ (g : Nat → Except String ApiResult) (e : String) (st2 : HandlerState),
      2 ≤ N → g 0 = Except.error e →
      2 ≤ (executeWithBackoff N b g c st2).calls) := by
  unfold executeWithBackoff
  obtain ⟨h1, h2, h3, h4⟩ := execGo_persistent_failure N b f c N 0 none st
    (by omega) (by omega) (fun i _ hi2 => hfail i hi2)
  refine ⟨h1, h2, h3, ?_, h4, ?_⟩
  · rw [h3]
    cases hf : f (N - 1) with
    | ok r =>
      by_cases hrl : isRateLimited r = true
      · simp only [hrl, if_true]
        decide
      · simp only [hrl, Bool.false_eq_true, if_false]
        decide
    | error e =>
      show ("error" : String) ≠ "success"
      decide
  · intro g e st2 hN2 hg0
    obtain ⟨m, rfl⟩ : ∃ m, N = m + 2 := ⟨N - 2, by omega⟩
    have hstep : execGo (m + 2) b g c (m + 2) 0 none 0 st2 =
        execGo (m + 2) b g c (m + 1) 1 (some e) 1 st2 := by
      simp [execGo, hg0]
    rw [hstep]
    exact execGo_calls_ge_one (m + 2) b g c m 1 (some e) 1 st2

/-- Witness for C6: two persistently rate-limited attempts exhaust the
budget with status "rate_limit_exceeded". -/
theorem C6_exhaustion_statuses_witness :
    (executeWithBackoff 2 1 (fun _ => Except.ok ⟨none, some 429, none, none⟩)
      (fun _ => 0) initHandlerState).calls = 2 :=
  (C6_exhaustion_statuses 2 1 (fun _ => Except.ok ⟨none, some 429, none, none⟩)
    (fun _ => 0) initHandlerState (by decide) (fun i _ => rfl)).1

/-- C10: once `current_backoff` is positive it stays positive across any
further `execute_with_backoff` call (no success clears it); recording any
rate-limit hit makes it positive; a state with positive `current_backoff`
makes `get_rate_limit_status` report "backing_off" (never "normal"); and
only `reset()` restores the "normal" report. -/
theorem C10_backoff_latched (N : Nat) (b : ℚ) (c : Nat → ℚ) (hb : 0 < b) :
    (∀ (f : Nat → Except String ApiResult) (st : HandlerState),
      0 < st.current_backoff →
      0 < (executeWithBackoff N b f c st).state.current_backoff) ∧
    (∀ (st : HandlerState) (now : ℚ), 0 < st.current_backoff →
      getRateLimitStatus st now = "backing_off" ∧ getRateLimitStatus st now ≠ "normal") ∧
    (∀ (f : Nat → Except String ApiResult) (st : HandlerState),
      (executeWithBackoff N b f c st).state.rate_limit_hits ≠ st.rate_limit_hits →
      0 < (executeWithBackoff N b f c st).state.current_backoff) ∧
    (∀ now : ℚ, getRateLimitStatus handlerReset now = "normal") := by
  refine ⟨?_, ?_, ?_, ?_⟩
  · intro f st hpos
    unfold executeWithBackoff
    rcases execGo_state_cases N b f c hb N 0 none 0 st with h | h
    · rw [h]; exact hpos
    · exact h
  · intro st now hpos
    have hbo : getRateLimitStatus st now = "backing_off" := by
      unfold getRateLimitStatus isBackingOff
      rw [if_pos (decide_eq_true hpos)]
    exact ⟨hbo, by rw [hbo]; decide⟩
  · intro f st hne
    unfold executeWithBackoff at *
    rcases execGo_state_cases N b f c hb N 0 none 0 st with h | h
    · exact absurd (by rw [h]) hne
    · exact h
  · intro now
    unfold getRateLimitStatus isBackingOff handlerReset recentHits5min
    simp

/-- Witness for C10 at a concrete handler configuration. -/
theorem C10_backoff_latched_witness :
    getRateLimitStatus handlerReset 0 = "normal" :=
  (C10_backoff_latched 5 2 (fun _ => 0) (by decide)).2.2.2 0

/-! ## Claim C9 -/

theorem pageCandidates_chunk_mem (pages : List String) :
    ∀ t ∈ pageCandidates pages, ∃ page ∈ pages, t.2.2 ∈ chunkPageText page := by
  unfold pageCandidates
  generalize hE : pages.enum = E
  have hsub : ∀ p ∈ E, p.2 ∈ pages := by
    intro p hp
    exact snd_mem_of_mem_enum (hE ▸ hp)
  clear hE
  induction E with
  | nil => intro t ht; exact absurd ht (by simp)
  | cons q rest ih =>
    intro t ht
    simp only [List.map_cons, List.foldr_cons] at ht
    rcases List.mem_append.mp ht with h1 | h1
    · by_cases hq : pyTrim q.2 = ""
      · rw [if_pos hq] at h1
        exact absurd h1 (List.not_mem_nil t)
      · rw [if_neg hq] at h1
        obtain ⟨ch, hch, hteq⟩ := List.mem_map.mp h1
        exact ⟨q.2, hsub q (List.mem_cons_self _ _), by rw [← hteq]; exact hch⟩
    · exact ih (fun p hp => hsub p (List.mem_cons_of_mem _ hp)) t h1

/-- C9: `ingest_playbook` leaves the previously persisted corpus untouched
when the playbook file is missing, and likewise when every candidate chunk
produced by chunking is under 15 characters after stripping (so zero valid
chunks survive the noise filter) — in both cases neither the chunk store nor
the vector index is written. -/
theorem C9_abort_preserves_corpus (uuidGen : Nat → String) (embed : String → List ℚ)
    (now : String) (fs : IngestFS) (pages : List String)
    (hshort : ∀ page ∈ pages, ∀ ch ∈ chunkPageText page, (pyTrim ch).length < 15) :
    ingestPlaybook none uuidGen embed now fs = fs ∧
    ingestPlaybook (some pages) uuidGen embed now fs = fs := by
  refine ⟨rfl, ?_⟩
  have hrec : buildRecords pages uuidGen now = [] := by
    unfold buildRecords
    have hfil : (pageCandidates pages).filter (fun t => ¬ (pyTrim t.2.2).length < 15) = [] := by
      rw [List.filter_eq_nil_iff]
      intro t ht
      obtain ⟨page, hpage, hch⟩ := pageCandidates_chunk_mem pages t ht
      simp only [decide_not, Bool.not_eq_true', Bool.not_eq_false, decide_eq_true_eq]
      exact hshort page hpage t.2.2 hch
    rw [hfil]
    rfl
  simp [ingestPlaybook, hrec]

/-- Witness for C9: a two-paragraph page whose chunks are all shorter than
15 characters, against a non-empty prior corpus. -/
theorem C9_abort_preserves_corpus_witness :
    ingestPlaybook (some ["short text", "tiny" ++ String.mk [Char.ofNat 10, Char.ofNat 10] ++ "words here"])
      (fun _ => "uuid") (fun _ => [1]) "2026-01-01"
      ⟨some [⟨"old", "old record text", ⟨none, none, none, none⟩⟩], some [[1]]⟩ =
    ⟨some [⟨"old", "old record text", ⟨none, none, none, none⟩⟩], some [[1]]⟩ :=
  (C9_abort_preserves_corpus (fun _ => "uuid") (fun _ => [1]) "2026-01-01"
    ⟨some [⟨"old", "old record text", ⟨none, none, none, none⟩⟩], some [[1]]⟩
    ["short text", "tiny" ++ String.mk [Char.ofNat 10, Char.ofNat 10] ++ "words here"]
    (by decide)).2

/-! ## Claim C2 -/

theorem parseJString_cons_quote (t : List Char) :
    parseJString (Char.ofNat 34 :: t) = some ([], t) := by
  rw [parseJString.eq_def]
  simp

theorem parseJString_cons_escaped (c : Char) (t : List Char) :
    parseJString (Char.ofNat 92 :: c :: t) =
      (parseJString t).map (fun p => (c :: p.1, p.2)) := by
  rw [parseJString.eq_def]
  simp

theorem parseJString_cons_plain (c : Char) (t : List Char)
    (h34 : c ≠ Char.ofNat 34) (h92 : c ≠ Char.ofNat 92) :
    parseJString (c :: t) = (parseJString t).map (fun p => (c :: p.1, p.2)) := by
  rw [parseJString.eq_def]
  simp [h34, h92]

theorem parseJString_enc (rest : List Char) :
    ∀ s : List Char,
      parseJString (jsonEscape s ++ Char.ofNat 34 :: rest) = some (s, rest) := by
  intro s
  induction s with
  | nil => exact parseJString_cons_quote rest
  | cons c cs ih =>
    have hesc : jsonEscape (c :: cs) = jsonEscapeChar c ++ jsonEscape cs := rfl
    by_cases hc : c = Char.ofNat 92 ∨ c = Char.ofNat 34
    · have h2 : jsonEscapeChar c = [Char.ofNat 92, c] := by
        unfold jsonEscapeChar
        rw [if_pos hc]
      rw [hesc, h2]
      rw [show ([Char.ofNat 92, c] ++ jsonEscape cs) ++ Char.ofNat 34 :: rest =
          Char.ofNat 92 :: c :: (jsonEscape cs ++ Char.ofNat 34 :: rest) by simp]
      rw [parseJString_cons_escaped, ih]
      rfl
    · push_neg at hc
      have h2 : jsonEscapeChar c = [c] := by
        unfold jsonEscapeChar
        rw [if_neg (by tauto)]
      rw [hesc, h2]
      rw [show ([c] ++ jsonEscape cs) ++ Char.ofNat 34 :: rest =
          c :: (jsonEscape cs ++ Char.ofNat 34 :: rest) by simp]
      rw [parseJString_cons_plain c _ hc.2 hc.1, ih]
      rfl

theorem parseEntries_single (kv : String × String) (f : Nat) :
    parseEntries (f + 1) (encBody [kv] ++ [Char.ofNat 125]) = some [kv] := by
  have h1 : encBody [kv] ++ [Char.ofNat 125] =
      Char.ofNat 34 :: (jsonEscape kv.1.data ++ Char.ofNat 34 ::
        (':' :: ' ' :: (Char.ofNat 34 :: (jsonEscape kv.2.data ++ Char.ofNat 34 ::
          [Char.ofNat 125])))) := by
    simp [encBody, encEntry, encString]
  rw [h1]
  rw [parseEntries]
  simp only [if_pos rfl]
  rw [parseJString_enc]
  simp only []
  rw [parseJString_enc]
  simp only []
  rfl

theorem parseEntries_encBody :
    ∀ (l : List (String × String)) (fuel : Nat), l ≠ [] → l.length ≤ fuel →
      parseEntries fuel (encBody l ++ [Char.ofNat 125]) = some l := by
  intro l
  induction l with
  | nil => intro fuel hne _; exact absurd rfl hne
  | cons kv l ih =>
    intro fuel _ hlen
    obtain ⟨f, rfl⟩ : ∃ f, fuel = f + 1 := ⟨fuel - 1, by simp at hlen; omega⟩
    cases l with
    | nil => exact parseEntries_single kv f
    | cons kv2 l2 =>
      have ihh : parseEntries f (encBody (kv2 :: l2) ++ [Char.ofNat 125]) =
          some (kv2 :: l2) := by
        refine ih f (by simp) ?_
        simp only [List.length_cons] at hlen ⊢
        omega
      have h1 : encBody (kv :: kv2 :: l2) ++ [Char.ofNat 125] =
          Char.ofNat 34 :: (jsonEscape kv.1.data ++ Char.ofNat 34 ::
            (':' :: ' ' :: (Char.ofNat 34 :: (jsonEscape kv.2.data ++ Char.ofNat 34 ::
              (',' :: ' ' :: (encBody (kv2 :: l2) ++ [Char.ofNat 125])))))) := by
        simp [encBody, encEntry, encString]
      rw [h1]
      rw [parseEntries]
      simp only [if_pos rfl]
      rw [parseJString_enc]
      simp only []
      rw [parseJString_enc]
      simp only []
      rw [ihh]
      rfl

theorem encEntry_length_pos (kv : String × String) : 0 < (encEntry kv).length := by
  simp [encEntry, encString]

theorem encBody_length_ge : ∀ l : List (String × String), l.length ≤ (encBody l).length := by
  intro l
  induction l with
  | nil => simp [encBody]
  | cons kv l ih =>
    cases l with
    | nil =>
      simpa [encBody] using encEntry_length_pos kv
    | cons kv2 l2 =>
      have h1 := encEntry_length_pos kv
      simp only [encBody, List.length_append, List.length_cons] at ih ⊢
      omega

theorem parseDump_dumps (p : List (String × String)) :
    parseDump (jsonDumpsSorted p) = some (sortEntries p) := by
  unfold jsonDumpsSorted
  generalize sortEntries p = l
  cases l with
  | nil => rfl
  | cons kv l2 =>
    obtain ⟨T, hT⟩ : ∃ T, encBody (kv :: l2) ++ ['}'] = Char.ofNat 34 :: T := by
      cases l2 with
      | nil => exact ⟨_, rfl⟩
      | cons kv2 l3 => exact ⟨_, rfl⟩
    rw [hT]
    have hred : parseDump ('{' :: Char.ofNat 34 :: T) =
        parseEntries (Char.ofNat 34 :: T).length (Char.ofNat 34 :: T) := by
      rw [parseDump.eq_def]
      simp
    rw [hred, ← hT]
    refine parseEntries_encBody (kv :: l2) _ (by simp) ?_
    have h1 := encBody_length_ge (kv :: l2)
    simp only [List.length_append, List.length_cons] at h1 ⊢
    omega

theorem stableHash_inj {p q : List (String × String)}
    (h : stableHash p = stableHash q) : sortEntries p = sortEntries q := by
  have hd : jsonDumpsSorted p = jsonDumpsSorted q := by
    have := congrArg String.data h
    simpa [stableHash] using this
  have hp := parseDump_dumps p
  have hq := parseDump_dumps q
  rw [hd] at hp
  exact Option.some.inj (hp.symm.trans hq)

theorem sortEntries_of_perm {p q : List (String × String)} (h : p.Perm q) :
    sortEntries p = sortEntries q := by
  refine List.eq_of_perm_of_sorted ?_ (List.sorted_insertionSort entryLe p)
    (List.sorted_insertionSort entryLe q)
  exact (List.perm_insertionSort entryLe p).trans (h.trans (List.perm_insertionSort entryLe q).symm)

theorem stableHash_eq_of_perm {p q : List (String × String)} (h : p.Perm q) :
    stableHash p = stableHash q := by
  unfold stableHash jsonDumpsSorted
  rw [sortEntries_of_perm h]

theorem stableHash_ne_of_not_perm {p q : List (String × String)} (h : ¬ p.Perm q) :
    stableHash p ≠ stableHash q := by
  intro heq
  apply h
  have hs := stableHash_inj heq
  have h1 : p.Perm (sortEntries p) := (List.perm_insertionSort entryLe p).symm
  rw [hs] at h1
  exact h1.trans (List.perm_insertionSort entryLe q)

theorem dedupeKey_ne (s a : String) {h1 h2 : String} (hne : h1 ≠ h2) :
    dedupeKey s a h1 ≠ dedupeKey s a h2 := by
  intro heq
  apply hne
  have hd := congrArg String.data heq
  simp only [dedupeKey, String.data_append, List.append_assoc] at hd
  have h3 := List.append_cancel_left (List.append_cancel_left
    (List.append_cancel_left (List.append_cancel_left hd)))
  exact congrArg String.mk h3

/-- C2: from a fresh dedupe store, `check_and_mark_idempotent` with payload
`P` returns `(false, key)`; calling it again with the identical payload
within the TTL returns `(true, key)` with the same key; calling it
afterwards with a modified payload `P'` (not equal as a map) returns
`(false, key')` with `key' ≠ key`; and any two payloads that are equal as
maps (permutations of each other's entries, regardless of insertion order)
produce the same content hash and hence the same dedupe key. -/
theorem C2_idempotent_check_and_mark (sid aty : String)
    (p p2 q1 q2 : List (String × String)) (t1 t2 t3 : ℚ)
    (hTTL : t2 - t1 ≤ DEDUP_TTL_MINUTES) (hmod : ¬ p.Perm p2) :
    (checkAndMarkIdempotent t1 [] sid aty p).1 =
      (false, dedupeKey sid aty (stableHash p)) ∧
    (checkAndMarkIdempotent t2 (checkAndMarkIdempotent t1 [] sid aty p).2 sid aty p).1 =
      (true, dedupeKey sid aty (stableHash p)) ∧
    (checkAndMarkIdempotent t3
        (checkAndMarkIdempotent t2 (checkAndMarkIdempotent t1 [] sid aty p).2 sid aty p).2
        sid aty p2).1 =
      (false, dedupeKey sid aty (stableHash p2)) ∧
    dedupeKey sid aty (stableHash p2) ≠ dedupeKey sid aty (stableHash p) ∧
    (q1.Perm q2 → stableHash q1 = stableHash q2) := by
  have hkne : dedupeKey sid aty (stableHash p2) ≠ dedupeKey sid aty (stableHash p) :=
    dedupeKey_ne sid aty (stableHash_ne_of_not_perm (fun hp => hmod hp.symm))
  have hkey1 : checkAndMarkIdempotent t1 [] sid aty p =
      ((false, dedupeKey sid aty (stableHash p)),
       [(dedupeKey sid aty (stableHash p), t1)]) := rfl
  have hnlt : ¬ DEDUP_TTL_MINUTES < t2 - t1 := not_lt.mpr hTTL
  have hkeep : cleanupExpired t2 [(dedupeKey sid aty (stableHash p), t1)] =
      [(dedupeKey sid aty (stableHash p), t1)] := by
    simp only [cleanupExpired, List.filter_cons, decide_eq_true_eq, List.filter_nil]
    exact if_pos hnlt
  have hkey2 : checkAndMarkIdempotent t2 [(dedupeKey sid aty (stableHash p), t1)] sid aty p =
      ((true, dedupeKey sid aty (stableHash p)),
       [(dedupeKey sid aty (stableHash p), t1)]) := by
    unfold checkAndMarkIdempotent
    rw [hkeep]
    simp [List.lookup]
  have hbne : ((dedupeKey sid aty (stableHash p2) ==
      dedupeKey sid aty (stableHash p)) = false) := beq_eq_false_iff_ne.mpr hkne
  have hkey3 : (checkAndMarkIdempotent t3 [(dedupeKey sid aty (stableHash p), t1)]
      sid aty p2).1 = (false, dedupeKey sid aty (stableHash p2)) := by
    unfold checkAndMarkIdempotent
    have hclean : cleanupExpired t3 [(dedupeKey sid aty (stableHash p), t1)] =
        if ¬ DEDUP_TTL_MINUTES < t3 - t1 then [(dedupeKey sid aty (stableHash p), t1)]
        else [] := by
      simp only [cleanupExpired, List.filter_cons, decide_eq_true_eq, List.filter_nil]
    rw [hclean]
    by_cases hex : DEDUP_TTL_MINUTES < t3 - t1
    · rw [if_neg (by exact fun h => h hex)]
      simp [List.lookup, hbne]
    · rw [if_pos hex]
      simp [List.lookup, hbne]
  refine ⟨by rw [hkey1], ?_, ?_, hkne, fun hperm => stableHash_eq_of_perm hperm⟩
  · rw [hkey1, hkey2]
  · rw [hkey1, hkey2]
    exact hkey3

/-- Witness for C2 at concrete payloads and times. -/
theorem C2_idempotent_check_and_mark_witness :
    (checkAndMarkIdempotent 1
        (checkAndMarkIdempotent 0 [] "s1" "call_summary" [("summary", "hello")]).2
        "s1" "call_summary" [("summary", "hello")]).1 =
      (true, dedupeKey "s1" "call_summary" (stableHash [("summary", "hello")])) :=
  (C2_idempotent_check_and_mark "s1" "call_summary"
    [("summary", "hello")] [("summary", "bye")]
    [("a", "1"), ("b", "2")] [("b", "2"), ("a", "1")]
    0 1 2 (by simp [DEDUP_TTL_MINUTES]) (by decide)).2.1
